import Mathlib

/-!
Shallow embedding of the weekly-roundup report generator (src/index.js,
first script variant) and proofs about its aggregation, classification,
ordering, summarization, rendering and publishing logic.

External collaborators (the GraphQL host API, the REST diff API, the
generative-language service, and the date-fns formatter) are modelled as
oracle parameters: the embedding receives their responses as values.
-/

namespace AWL

/-- An `author { login url }` node; `login` is `none` when the host returns a
null login (e.g. a deleted user), `url` the profile URL. -/
structure Author where
  login : Option String
  url : String
deriving DecidableEq

/-- An activity item node as returned by the search query: a Pull Request or
an Issue.  `typename` carries the GraphQL `__typename` string; nullable
timestamps are `Option`; `commentAuthors` and `reviewAuthors` are the
`author` fields of the nested `comments.nodes` / `reviews.nodes` collections
(reviews are only populated for PRs).  `aiSummary` is the field attached
later by the enrichment step. -/
structure Item where
  typename : String
  number : Nat
  title : String
  body : Option String
  url : String
  state : String
  createdAt : String
  updatedAt : String
  closedAt : Option String
  mergedAt : Option String
  author : Option Author
  commentAuthors : List (Option Author)
  reviewAuthors : List (Option Author)
  aiSummary : Option String
deriving DecidableEq

/-! ### JavaScript string comparison

JS compares strings code-unit-wise (lexicographically); the script relies on
this for its `timestamp >= formattedStart && timestamp <= formattedEnd`
window checks on ISO-format date strings.  We model it as lexicographic
comparison of the character sequences. -/

/-- Lexicographic strict order on character lists, by code point. -/
def ltCharList : List Char → List Char → Bool
  | [], [] => false
  | [], _ :: _ => true
  | _ :: _, [] => false
  | a :: as, b :: bs =>
      if a.val < b.val then true
      else if b.val < a.val then false
      else ltCharList as bs

/-- JS `a < b` on strings. -/
def jsLt (a b : String) : Bool := ltCharList a.data b.data

/-- JS `a <= b` on strings (`!(b < a)`). -/
def jsLe (a b : String) : Bool := !(jsLt b a)

/-- JS substring search: `startsWith` at the current position. -/
def startsWithL : List Char → List Char → Bool
  | _, [] => true
  | [], _ :: _ => false
  | c :: cs, d :: ds => c = d && startsWithL cs ds

/-- JS substring search over character lists. -/
def containsSub : List Char → List Char → Bool
  | [], sub => sub.isEmpty
  | s :: rest, sub => startsWithL (s :: rest) sub || containsSub rest sub

/-- JS `s.includes(sub)`. -/
def jsIncludes (s sub : String) : Bool := containsSub s.data sub.data

/-- JS `s.startsWith(p)`. -/
def jsStartsWith (s p : String) : Bool := startsWithL s.data p.data

/-- JS `s.toLowerCase()` (modelled per character). -/
def toLowerStr (s : String) : String := String.mk (s.data.map Char.toLower)

/-! ### Window membership checks

`formattedStart` / `formattedEnd` are the `start`/`endd` parameters below;
every check is a literal transcription of the string comparisons in the
script. -/

/-- Check `s >= start && s <= endd` (the in-window check of the script on a mandatory
timestamp such as `createdAt`). -/
def inWindow (start endd s : String) : Bool := jsLe start s && jsLe s endd

/-- Check `t && t >= start && t <= endd` — the in-window check of the script on a
nullable timestamp (`mergedAt` / `closedAt`): `null` is falsy. -/
def optInWindow (start endd : String) : Option String → Bool
  | none => false
  | some s => inWindow start endd s

/-! ### Classifier (src/index.js lines 122–149) -/

/-- Function `getPriority` (lines 122–139): lifecycle-phase priority of an item
relative to the window. -/
def getPriority (start endd : String) (item : Item) : Nat :=
  let createdInWeek := inWindow start endd item.createdAt
  if item.typename = "PullRequest" then
    let mergedInWeek := optInWindow start endd item.mergedAt
    let closedInWeek := optInWindow start endd item.closedAt
    if mergedInWeek then 1
    else if closedInWeek then 4
    else if createdInWeek then 2
    else 3
  else
    let closedInWeek := optInWindow start endd item.closedAt
    if closedInWeek then 4
    else if createdInWeek then 2
    else 3

/-- Function `getPrefixPriority` (lines 142–149): title-keyword priority,
case-insensitive. -/
def getPrefixPriority (title : String) : Nat :=
  let t := toLowerStr title
  if jsStartsWith t ("feature") then 1
  else if jsStartsWith t ("feat") then 2
  else if jsStartsWith t ("fix") then 3
  else if jsStartsWith t ("chore") then 4
  else 5

/-- Comparator `sortItems` (lines 151–164): returns a signed number exactly
as the JS comparator does. -/
def sortItems (start endd : String) (a b : Item) : Int :=
  let pPA := getPrefixPriority a.title
  let pPB := getPrefixPriority b.title
  if pPA ≠ pPB then (pPA : Int) - pPB
  else
    let pSA := getPriority start endd a
    let pSB := getPriority start endd b
    if pSA ≠ pSB then (pSA : Int) - pSB
    else (a.number : Int) - b.number

/-- The weak order induced by the comparator: `sortItems a b <= 0`, which is
what makes `a` sort no later than `b`. -/
def sortLE (start endd : String) (a b : Item) : Bool := sortItems start endd a b ≤ 0

/-- Model of `prs.sort(sortItems)` / `issues.sort(sortItems)` (lines 166–167):
JS `Array.prototype.sort` with a consistent comparator produces a stable
sequence sorted by the comparator; we model it with a stable sort on
`sortLE`. -/
def jsSort (start endd : String) (l : List Item) : List Item :=
  List.insertionSort (fun a b => sortLE start endd a b = true) l

/-! ### Aggregator (src/index.js lines 92–119)

A JS `Map` is modelled as an association list in insertion order:
`Map.set` updates the value in place when the key exists (keeping its
position) and appends otherwise; `Map.values()` iterates in that order. -/

/-- JS `m.set(k, v)`. -/
def mapSet {α : Type} (m : List (String × α)) (k : String) (v : α) :
    List (String × α) :=
  if m.any (fun p => p.1 = k) then
    m.map (fun p => if p.1 = k then (k, v) else p)
  else m ++ [(k, v)]

/-- JS `m.get(k)` (as an option). -/
def mapGet {α : Type} (m : List (String × α)) (k : String) : Option α :=
  (m.find? (fun p => p.1 = k)).map Prod.snd

/-- Truthiness filter of `addContributor` (lines 95–99): the contributor is
recorded only when `author` is non-null and `author.login` is truthy
(non-null, non-empty). -/
def loginOf : Option Author → Option (String × String)
  | none => none
  | some a =>
      match a.login with
      | none => none
      | some l => if l = "" then none else some (l, a.url)

/-- Function `addContributor` (lines 95–99) acting on the `contributors`
map. -/
def addContributor (m : List (String × String)) (author : Option Author) :
    List (String × String) :=
  match loginOf author with
  | some lu => mapSet m lu.1 lu.2
  | none => m

/-- The author entries walked for one item (lines 103–111): the item author,
then the comment authors, then the review authors (absent collections are
skipped, which for issues leaves `reviewAuthors` empty). -/
def itemAuthors (item : Item) : List (Option Author) :=
  item.author :: (item.commentAuthors ++ item.reviewAuthors)

/-- The forEach over `[...prItems, ...issueItems]` (lines 101–111): builds
the URL-keyed `allItems` map and the `contributors` map in one pass. -/
def processItems (items : List Item) :
    List (String × Item) × List (String × String) :=
  items.foldl
    (fun acc item =>
      (mapSet acc.1 item.url item, (itemAuthors item).foldl addContributor acc.2))
    ([], [])

/-- Model of `allItems` after the forEach, on input `prItems ++ issueItems`. -/
def allItems (prItems issueItems : List Item) : List (String × Item) :=
  (processItems (prItems ++ issueItems)).1

/-- Model of `contributors` after the forEach. -/
def contributors (prItems issueItems : List Item) : List (String × String) :=
  (processItems (prItems ++ issueItems)).2

/-- The partition loop over `allItems.values()` (lines 113–119): items whose
typename is PullRequest go to `prs`, everything else to `issues`. -/
def partitionItems (all : List (String × Item)) : List Item × List Item :=
  ((all.map Prod.snd).filter (fun item => item.typename = "PullRequest"),
   (all.map Prod.snd).filter (fun item => ¬ item.typename = "PullRequest"))

/-! ### Contributor rendering (src/index.js lines 375–398) -/

/-- The hard-coded `coreTeam` roster (lines 375–377). -/
def coreTeam : List String :=
  ["amedina", "gagan0123", "amovar18", "mayan-000", "mohdsayed",
   "maitreyie-chavan", "joellobo1234"]

/-- JS default `Array.prototype.sort()` on strings compares code-unit-wise;
modelled as a stable sort by the lexicographic string order. -/
def jsSortStrings (l : List String) : List String :=
  List.insertionSort (fun a b => jsLe a b = true) l

/-- Computation of `finalContribOrder` (lines 380–390): the core team first,
then the remaining contributor logins sorted alphabetically. -/
def finalContribOrder (contribs : List (String × String)) : List String :=
  coreTeam ++ jsSortStrings
    ((contribs.map Prod.fst).filter (fun c => ¬ coreTeam.contains c))

/-- All logins contributed to the identity map while walking the items:
each item yields its author login plus nested comment/review author logins,
entries without a (truthy) login being skipped. -/
def collectedLogins (items : List Item) : List String :=
  items.flatMap (fun item =>
    (itemAuthors item).filterMap (fun a => (loginOf a).map Prod.fst))

/-! ### Summarizer (src/index.js lines 247–299)

The generative service is an external collaborator; its outcome is passed in
as a value (`AIOutcome`).  The returned `Bool` of `generateSummary` records
whether the generative-service path was reached at all. -/

/-- Possible outcomes of one generative-service call: a returned text, or a
thrown error (network failure, service error, ...). -/
inductive AIOutcome where
  | ok (text : String)
  | err
deriving DecidableEq

/-- The constant filler sentence. -/
def fillerSummary : String :=
  "This week saw steady progress with various improvements."

/-- JS `s.trim()`: strip leading and trailing whitespace. -/
def jsTrim (s : String) : String :=
  String.mk
    (((s.data.dropWhile Char.isWhitespace).reverse.dropWhile Char.isWhitespace).reverse)

/-- The keyword test of line 262: the lowercased title contains one of the
fixed keywords. -/
def hasSignificantKeyword (title : String) : Bool :=
  let t := toLowerStr title
  jsIncludes t ("feat") || jsIncludes t ("add") || jsIncludes t ("support") ||
    jsIncludes t ("stable") || jsIncludes t ("release") || jsIncludes t ("update") ||
    jsIncludes t ("fix")

/-! Model of the regex replace of line 265:
`title.replace(/^(feat|fix|chore|docs)(\(.*\))?:/i, '').trim()`.
The anchored pattern is one of the four keywords (case-insensitively),
optionally followed by a parenthesised scope (greedy `.*`, which cannot
contain a newline), then a literal colon; on a match the matched text is
removed, otherwise the title is left unchanged; the result is trimmed. -/

/-- Match one keyword (given lowercase) case-insensitively at the head,
returning the remainder. -/
def dropKw : List Char → List Char → Option (List Char)
  | [], rest => some rest
  | _ :: _, [] => none
  | k :: ks, c :: cs => if c.toLower = k then dropKw ks cs else none

/-- Match a literal `):` at the head. -/
def matchCloseColon : List Char → Option (List Char)
  | ')' :: ':' :: rest => some rest
  | _ => none

/-- Match `.*\):` at the head, with the greedy backtracking order of the
regex engine (longest `.*` first) and `.` not matching a newline. -/
def dotStarCloseColon : List Char → Option (List Char)
  | [] => none
  | c :: cs =>
      if c = '\n' then none
      else
        match dotStarCloseColon cs with
        | some tail => some tail
        | none => matchCloseColon (c :: cs)

/-- Match a literal `:` at the head. -/
def matchColonL : List Char → Option (List Char)
  | ':' :: rest => some rest
  | _ => none

/-- After the keyword: the optional scope group is tried first (the regex
prefers the group present), then the bare colon. -/
def matchAfterKw (s : List Char) : Option (List Char) :=
  match s with
  | '(' :: cs =>
      match dotStarCloseColon cs with
      | some tail => some tail
      | none => matchColonL s
  | _ => matchColonL s

/-- Try one alternation branch of the regex. -/
def tryKwStrip (kw : String) (s : List Char) : Option (List Char) :=
  match dropKw kw.data s with
  | some rest => matchAfterKw rest
  | none => none

/-- The whole replace-and-trim of line 265 (alternation tried left to
right). -/
def stripTitleTag (title : String) : String :=
  let s := title.data
  let res := (tryKwStrip ("feat") s).orElse (fun _ =>
    (tryKwStrip ("fix") s).orElse (fun _ =>
      (tryKwStrip ("chore") s).orElse (fun _ => tryKwStrip ("docs") s)))
  match res with
  | some tail => jsTrim (String.mk tail)
  | none => jsTrim title

/-- A markdown link. -/
def mdLink (text url : String) : String := "[" ++ text ++ "](" ++ url ++ ")"

/-- The heuristic fallback branch of `generateSummary` (lines 256–267),
taken when no AI key is configured. -/
def heuristicSummary (start endd : String) (prsNodes : List Item) : String :=
  let significantPRs := prsNodes.filter (fun pr =>
    optInWindow start endd pr.mergedAt && hasSignificantKeyword pr.title)
  if significantPRs.length = 0 then fillerSummary
  else
    let updates :=
      (significantPRs.map (fun pr => mdLink (stripTitleTag pr.title) pr.url)).take 3
    if updates.length = 1 then
      "We are excited to highlight the completion of " ++ updates.headI ++ "."
    else
      "Highlights include " ++ String.intercalate (", ") updates.dropLast ++
        " and " ++ String.intercalate (",") (updates.drop (updates.length - 1)) ++ "."

/-- Stringification of `pr.author ? pr.author.login : 'unknown'` (JS
interpolates a null login as the text null). -/
def authorLoginText (pr : Item) : String :=
  match pr.author with
  | some a =>
      match a.login with
      | some l => l
      | none => "null"
  | none => "unknown"

/-- Function `generateSummary` (lines 247–299).  Returns the produced
summary string and whether the generative-service path was reached. -/
def generateSummary (start endd : String) (geminiApiKey : Option String)
    (ai : AIOutcome) (prsNodes : List Item) : String × Bool :=
  if prsNodes.length = 0 then (fillerSummary, false)
  else
    match geminiApiKey with
    | none => (heuristicSummary start endd prsNodes, false)
    | some _ =>
        let prSummaries := String.intercalate ("\n")
          ((prsNodes.filter (fun pr => optInWindow start endd pr.mergedAt)).map
            (fun pr => "- " ++ pr.title ++ " (Author: " ++ authorLoginText pr ++ ")"))
        if prSummaries = "" then (fillerSummary, false)
        else
          match ai with
          | .ok t => (jsTrim t, true)
          | .err => (fillerSummary, true)

/-! ### Renderer (src/index.js lines 184–244)

The date formatter `format(new Date(d), "MMM d")` comes from the external
date library; it is passed in as an oracle `fmtDate`. -/

/-- Replace of `/\n/g` by a space. -/
def replaceNewlines (s : String) : String :=
  String.mk (s.data.map (fun c => if c = '\n' then ' ' else c))

/-- The author link of line 232 (JS interpolates a null login as the text
null). -/
def authorLinkHtml : Option Author → String
  | some a =>
      "<a href=\"" ++ a.url ++ "\">@" ++
        (match a.login with
         | some l => l
         | none => "null") ++ "</a>"
  | none => "unknown"

/-- The summary text of line 233:
`item.aiSummary || (item.body ? body-excerpt : "No description provided.")`,
with JS truthiness (an empty string falls through). -/
def renderSummaryText (item : Item) : String :=
  let fallback :=
    match item.body with
    | some b =>
        if b = "" then "No description provided."
        else String.mk ((replaceNewlines b).data.take 150) ++ "..."
    | none => "No description provided."
  match item.aiSummary with
  | some s => if s = "" then fallback else s
  | none => fallback

/-- Function `renderAccordion` (lines 187–244).  The initial
icon/status/date values of lines 192–194 are always overwritten (every
branch of both if-chains assigns them), so only the branch results appear.
The selected date is returned through `fmtDate`. -/
def renderAccordion (fmtDate : String → String) (start endd : String)
    (item : Item) (type : String) : String :=
  let mergedInWeek := optInWindow start endd item.mergedAt
  let closedInWeek := optInWindow start endd item.closedAt
  let createdInWeek := inWindow start endd item.createdAt
  let isd :=
    if type = "pr" then
      if mergedInWeek then ("✅", "Merged on", item.mergedAt.getD (""))
      else if closedInWeek then ("🔴", "Closed on", item.closedAt.getD (""))
      else if createdInWeek then ("🚧", "Opened on", item.createdAt)
      else ("⚡", "Updated on", item.updatedAt)
    else
      if closedInWeek then ("✅", "Closed on", item.closedAt.getD (""))
      else if createdInWeek then ("✨", "Opened on", item.createdAt)
      else ("⚡", "Updated on", item.updatedAt)
  let formattedDateStr := fmtDate isd.2.2
  let authorLink := authorLinkHtml item.author
  let summary := renderSummaryText item
  let linkText := if type = "pr" then "📥 View Pull Request" else "🐛 View Issue"
  "<details>\n<summary>" ++ isd.1 ++ " <strong>" ++ item.title ++ "</strong> (" ++
    isd.2.1 ++ " " ++ formattedDateStr ++ " by " ++ authorLink ++
    ")</summary>\n<br>\n" ++ summary ++ "\n<br><br>\n<a href=\"" ++ item.url ++
    "\">" ++ linkText ++ "</a>\n</details>"

/-! ### Per-item AI summarization (src/index.js lines 309–357)

The generative call plus the JSON string extraction and `JSON.parse` of
lines 339–346 is one fallible external step; its outcome is the `aiResponse`
value: either a thrown error (network failure, service error, no parsable
JSON, no array under `summaries`) or the parsed `summaries` array.  The
elements of that array need not be well formed: the service may emit `null`
entries, and evaluating `s.index` on such an element inside
`summaries.find` (line 350) throws a `TypeError` in the middle of the
`relevantPRs.forEach` — after earlier iterations have already assigned
`pr.aiSummary` on their (shared, mutable) items.  The model therefore walks
the parsed array exactly as `find` does and propagates such a throw out of
the assignment loop, leaving the partially mutated list behind (the catch of
lines 354–356 only logs). -/

/-- The `relevantPRs` filter predicate (lines 310–315). -/
def isRelevantPR (start endd : String) (pr : Item) : Bool :=
  optInWindow start endd pr.mergedAt || optInWindow start endd pr.closedAt ||
    inWindow start endd pr.createdAt

/-- One element of the parsed `summaries` array: a usable object carrying a
numeric `index` and a string `summary`, or a null/undefined element whose
property access throws.  An object without a matching numeric `index`
property never satisfies the `find` predicate and never throws, so it is
represented by `obj` with an index matching no position. -/
inductive ParsedEntry where
  | obj (index : Nat) (summary : String)
  | nullish
deriving DecidableEq

/-- JS `summaries.find(s => s.index === i)` (line 350): the predicate is
evaluated element by element in order, so a matching object is returned as
soon as it is reached, a null element reached first throws (`Except.error`),
and a completed walk without a match yields `none` (JS undefined). -/
def findSummary : List ParsedEntry → Nat → Except Unit (Option (Nat × String))
  | [], _ => .ok none
  | ParsedEntry.nullish :: _, _ => .error ()
  | ParsedEntry.obj idx s :: rest, i =>
      if idx = i then .ok (some (idx, s)) else findSummary rest i

/-- The value assigned at line 351: the summary of the found object, or the
placeholder when `find` returned undefined. -/
def summaryValue : Option (Nat × String) → String
  | some f => f.2
  | none => "No summary available."

/-- The `relevantPRs.forEach` of lines 349–352, walking the full `prs` list
and counting relevant PRs.  A throw inside `find` aborts the loop before the
current assignment: the current item and every later item keep their state,
while the items already walked keep the summaries assigned to them. -/
def assignSummaries (start endd : String) (summaries : List ParsedEntry) :
    List Item → Nat → List Item
  | [], _ => []
  | pr :: rest, i =>
      if isRelevantPR start endd pr then
        match findSummary summaries i with
        | .error _ => pr :: rest
        | .ok found =>
            { pr with aiSummary := some (summaryValue found) } ::
              assignSummaries start endd summaries rest (i + 1)
      else pr :: assignSummaries start endd summaries rest i

/-- The whole guarded enrichment block (lines 317–357) acting on `prs`. -/
def enrichPRs (start endd : String) (geminiApiKey : Option String)
    (aiResponse : Except String (List ParsedEntry)) (prs : List Item) :
    List Item :=
  let relevantPRs := prs.filter (isRelevantPR start endd)
  if 0 < relevantPRs.length ∧ geminiApiKey.isSome then
    match aiResponse with
    | .ok summaries => assignSummaries start endd summaries prs 0
    | .error _ => prs
  else prs

/-- The enrichment step on the whole report state `(prs, issues)`: the code
of lines 317–357 never references `issues`. -/
def enrichStep (start endd : String) (geminiApiKey : Option String)
    (aiResponse : Except String (List ParsedEntry))
    (st : List Item × List Item) : List Item × List Item :=
  (enrichPRs start endd geminiApiKey aiResponse st.1, st.2)

/-- Erase the one mutable enrichment field, for frame statements. -/
def stripAI (item : Item) : Item := { item with aiSummary := none }

/-! ### Activity fetcher (src/index.js lines 42–90) -/

/-- Function `fetchItems`: the whole query is one fallible external call;
the catch block of lines 81–84 logs and returns the empty list. -/
def fetchItems (queryResult : Except String (List Item)) :
    Except String (List Item) :=
  match queryResult with
  | .ok nodes => .ok nodes
  | .error _ => .ok []

/-- The `Promise.all` pair of lines 87–90: the two fetches are independent. -/
def fetchBoth (prResult issueResult : Except String (List Item)) :
    Except String (List Item) × Except String (List Item) :=
  (fetchItems prResult, fetchItems issueResult)

/-! ### Publisher (src/index.js lines 403–447) -/

/-- A discussion category node. -/
structure Category where
  id : String
  name : String
deriving DecidableEq

/-- The repository-lookup response: id plus up to 10 discussion
categories. -/
structure RepoInfo where
  id : String
  categories : List Category
deriving DecidableEq

/-- Externally observable actions of the publisher tail. -/
inductive Eff where
  | consoleLog (s : String)
  | repoLookup (owner repo : String)
  | createDiscussion (repositoryId categoryId title bodyText : String)
deriving DecidableEq

/-- First component of `targetRepo.split("/")`. -/
def ownerOf (s : String) : String :=
  String.mk (s.data.takeWhile (fun c => c ≠ '/'))

/-- Second component of `targetRepo.split("/")`. -/
def repoOf (s : String) : String :=
  String.mk (((s.data.dropWhile (fun c => c ≠ '/')).drop 1).takeWhile
    (fun c => c ≠ '/'))

/-- Line 428: `categories.find(c => c.name.toLowerCase() === "announcements")
|| categories[0]`. -/
def selectCategory (categories : List Category) : Option Category :=
  match categories.find? (fun c => toLowerStr c.name = "announcements") with
  | some c => some c
  | none => categories.head?

/-- The log separator line. -/
def sepLine : String := "---------------------------------------------------"

/-- The tail of `main` from line 403 on: dry-run check, repository/category
lookup, discussion creation.  An `Except.error` models a thrown error (the
process then exits non-zero); `Except.ok` carries the external actions of a
successful run (the process then exits zero).  `repoInfo` and
`discussionUrl` are the oracle responses of the host API. -/
def publishTail (dryRun : Option String) (githubRepository : Option String)
    (repoInfo : RepoInfo) (discussionUrl : String)
    (reportTitle bodyText : String) : Except String (List Eff) :=
  if dryRun = some "true" then
    .ok [Eff.consoleLog sepLine,
         Eff.consoleLog ("DRY RUN MODE ENABLED. Generated Body:"),
         Eff.consoleLog sepLine,
         Eff.consoleLog bodyText,
         Eff.consoleLog sepLine]
  else
    match githubRepository with
    | none => .error ("GITHUB_REPOSITORY env var not set")
    | some targetRepo =>
        let owner := ownerOf targetRepo
        let repo := repoOf targetRepo
        match selectCategory repoInfo.categories with
        | none => .error ("No discussion categories found.")
        | some category =>
            .ok [Eff.repoLookup owner repo,
                 Eff.consoleLog ("Posting to Category: " ++ category.name),
                 Eff.createDiscussion repoInfo.id category.id reportTitle bodyText,
                 Eff.consoleLog ("Discussion created: " ++ discussionUrl)]

/-! ### Concrete scenario inputs used by witnesses and counterexamples -/

/-- A PR item and an Issue item sharing the URL `u`. -/
def prU : Item :=
  { typename := "PullRequest", number := 1, title := "pr title", body := none,
    url := "u", state := "OPEN", createdAt := "2024-01-08",
    updatedAt := "2024-01-09", closedAt := none, mergedAt := none,
    author := none, commentAuthors := [], reviewAuthors := [], aiSummary := none }

/-- The Issue item sharing URL `u` with `prU`. -/
def issU : Item :=
  { typename := "Issue", number := 2, title := "issue title", body := none,
    url := "u", state := "OPEN", createdAt := "2024-01-08",
    updatedAt := "2024-01-09", closedAt := none, mergedAt := none,
    author := none, commentAuthors := [], reviewAuthors := [], aiSummary := none }

/-- The Scenario A pull request: titled Feature: add caching, merged
2024-01-10. -/
def c6pr : Item :=
  { typename := "PullRequest", number := 42, title := "Feature: add caching",
    body := none, url := "https://example.com/pr/42", state := "MERGED",
    createdAt := "2024-01-08", updatedAt := "2024-01-10",
    closedAt := some "2024-01-10", mergedAt := some "2024-01-10",
    author := some { login := some "alice", url := "https://example.com/alice" },
    commentAuthors := [], reviewAuthors := [], aiSummary := none }

/-! ### Map lemmas (towards C1 and C4) -/

/-- Keys after `mapSet`: unchanged when the key was present, appended
otherwise. -/
lemma keys_mapSet {α : Type} (m : List (String × α)) (k : String) (v : α) :
    (mapSet m k v).map Prod.fst =
      if m.any (fun p => p.1 = k) then m.map Prod.fst
      else m.map Prod.fst ++ [k] := by
  unfold mapSet
  split
  · rw [List.map_map]
    refine List.map_congr_left ?_
    intro p _
    by_cases hp : p.1 = k
    · simp [hp]
    · simp [hp]
  · simp

/-- Key-uniqueness is preserved by `mapSet`. -/
lemma nodup_keys_mapSet {α : Type} {m : List (String × α)} (k : String) (v : α)
    (h : (m.map Prod.fst).Nodup) : ((mapSet m k v).map Prod.fst).Nodup := by
  rw [keys_mapSet]
  split
  · exact h
  · next hany =>
      have hk : k ∉ m.map Prod.fst := by
        intro hmem
        rcases List.mem_map.mp hmem with ⟨p, hp, hpk⟩
        exact hany (List.any_eq_true.mpr ⟨p, hp, by simp [hpk]⟩)
      simp [List.nodup_append, h, hk]

/-- Membership of the inserted key. -/
lemma mem_keys_mapSet_self {α : Type} (m : List (String × α)) (k : String)
    (v : α) : k ∈ (mapSet m k v).map Prod.fst := by
  rw [keys_mapSet]
  split
  · next h =>
      rcases List.any_eq_true.mp h with ⟨p, hp, he⟩
      exact List.mem_map.mpr ⟨p, hp, by simpa using he⟩
  · simp

/-- Membership of old keys is preserved. -/
lemma mem_keys_mapSet_of_mem {α : Type} {m : List (String × α)} {k' : String}
    (k : String) (v : α) (h : k' ∈ m.map Prod.fst) :
    k' ∈ (mapSet m k v).map Prod.fst := by
  rw [keys_mapSet]
  split
  · exact h
  · exact List.mem_append_left _ h

/-- Lookup of the key just set. -/
lemma mapGet_mapSet_self {α : Type} (m : List (String × α)) (k : String)
    (v : α) : mapGet (mapSet m k v) k = some v := by
  unfold mapSet
  split
  · next h =>
      induction m with
      | nil => simp at h
      | cons p rest ih =>
          by_cases hp : p.1 = k
          · simp [mapGet, hp]
          · have h' : rest.any (fun p => p.1 = k) = true := by
              rcases List.any_eq_true.mp h with ⟨q, hq, hqk⟩
              rcases List.mem_cons.mp hq with rfl | hq'
              · simp at hqk; exact absurd hqk hp
              · exact List.any_eq_true.mpr ⟨q, hq', hqk⟩
            simpa [mapGet, List.find?_cons, hp] using ih h'
  · induction m with
    | nil => simp [mapGet]
    | cons p rest ih =>
        next h =>
        have hp : ¬ p.1 = k := by
          intro hpk
          exact h (List.any_eq_true.mpr ⟨p, List.mem_cons_self p rest, by simp [hpk]⟩)
        have h' : ¬ rest.any (fun p => p.1 = k) = true := by
          intro hr
          rcases List.any_eq_true.mp hr with ⟨q, hq, hqk⟩
          exact h (List.any_eq_true.mpr ⟨q, List.mem_cons_of_mem _ hq, hqk⟩)
        simpa [mapGet, List.find?_cons, hp] using ih h'

/-- Overwriting the value at key `k` leaves lookups at other keys
unchanged. -/
lemma mapGet_overwrite_ne {α : Type} (m : List (String × α)) (k k' : String)
    (v : α) (hkk : ¬ k = k') :
    mapGet (m.map (fun p => if p.1 = k then (k, v) else p)) k' = mapGet m k' := by
  induction m with
  | nil => simp [mapGet]
  | cons p rest ih =>
      have hk'k : ¬ k' = k := fun h => hkk h.symm
      by_cases hp : p.1 = k
      · have hp' : ¬ p.1 = k' := by rw [hp]; exact hkk
        simpa [mapGet, List.find?_cons, hp, hp', hkk] using ih
      · by_cases hp' : p.1 = k'
        · simp [mapGet, List.find?_cons, hp, hp', hk'k]
        · simpa [mapGet, List.find?_cons, hp, hp'] using ih

/-- Appending an entry at key `k` leaves lookups at other keys unchanged. -/
lemma mapGet_append_ne {α : Type} (m : List (String × α)) (k k' : String)
    (v : α) (hkk : ¬ k = k') :
    mapGet (m ++ [(k, v)]) k' = mapGet m k' := by
  induction m with
  | nil => simp [mapGet, hkk]
  | cons p rest ih =>
      by_cases hp' : p.1 = k'
      · simp [mapGet, List.find?_cons, hp']
      · simpa [mapGet, List.find?_cons, hp'] using ih

/-- Lookup of a different key is unchanged by `mapSet`. -/
lemma mapGet_mapSet_ne {α : Type} (m : List (String × α)) (k k' : String)
    (v : α) (hne : k' ≠ k) : mapGet (mapSet m k v) k' = mapGet m k' := by
  have hkk : ¬ k = k' := fun he => hne he.symm
  unfold mapSet
  split
  · exact mapGet_overwrite_ne m k k' v hkk
  · exact mapGet_append_ne m k k' v hkk

/-! ### Fold lemmas for the aggregation pass -/

/-- The URL-map component of the one-pass fold, in isolation. -/
def buildAll (items : List Item) : List (String × Item) :=
  items.foldl (fun m item => mapSet m item.url item) []

/-- The contributor-map component of the one-pass fold, in isolation. -/
def buildContrib (items : List Item) : List (String × String) :=
  items.foldl (fun m item => (itemAuthors item).foldl addContributor m) []

lemma processItems_eq (items : List Item) :
    processItems items = (buildAll items, buildContrib items) := by
  suffices h : ∀ (a : List (String × Item)) (b : List (String × String)),
      items.foldl
        (fun acc item =>
          (mapSet acc.1 item.url item, (itemAuthors item).foldl addContributor acc.2))
        (a, b) =
      (items.foldl (fun m item => mapSet m item.url item) a,
       items.foldl (fun m item => (itemAuthors item).foldl addContributor m) b) by
    exact h [] []
  induction items with
  | nil => intro a b; rfl
  | cons it rest ih => intro a b; exact ih _ _

lemma mapGet_urlFold_of_not_mem (items : List Item) (m : List (String × Item))
    (u : String) (h : ∀ it ∈ items, ¬ it.url = u) :
    mapGet (items.foldl (fun m item => mapSet m item.url item) m) u = mapGet m u := by
  induction items generalizing m with
  | nil => rfl
  | cons it rest ih =>
      simp only [List.foldl_cons]
      rw [ih _ (fun x hx => h x (List.mem_cons_of_mem _ hx))]
      exact mapGet_mapSet_ne m it.url u it
        (fun he => h it (List.mem_cons_self it rest) he.symm)

/-- When some item of the batch carries URL `u`, the stored entry is one of
the batch items with that URL (the last one processed). -/
lemma mapGet_urlFold_mem (items : List Item) (m : List (String × Item))
    (u : String) (h : ∃ it ∈ items, it.url = u) :
    ∃ it ∈ items, it.url = u ∧
      mapGet (items.foldl (fun m item => mapSet m item.url item) m) u = some it := by
  induction items generalizing m with
  | nil => rcases h with ⟨it, h1, _⟩; cases h1
  | cons a rest ih =>
      by_cases hr : ∃ it ∈ rest, it.url = u
      · rcases ih (mapSet m a.url a) hr with ⟨it, h1, h2, h3⟩
        exact ⟨it, List.mem_cons_of_mem _ h1, h2, h3⟩
      · have ha : a.url = u := by
          rcases h with ⟨it, hit, hu⟩
          rcases List.mem_cons.mp hit with rfl | hit'
          · exact hu
          · exact absurd ⟨it, hit', hu⟩ hr
        refine ⟨a, List.mem_cons_self a rest, ha, ?_⟩
        push_neg at hr
        simp only [List.foldl_cons]
        rw [mapGet_urlFold_of_not_mem rest _ u hr]
        rw [ha]
        exact mapGet_mapSet_self m u a

lemma nodup_keys_urlFold (items : List Item) (m : List (String × Item))
    (h : (m.map Prod.fst).Nodup) :
    ((items.foldl (fun m item => mapSet m item.url item) m).map Prod.fst).Nodup := by
  induction items generalizing m with
  | nil => exact h
  | cons a rest ih => exact ih _ (nodup_keys_mapSet a.url a h)

lemma mem_keys_urlFold_of_mem (items : List Item) (m : List (String × Item))
    {k : String} (h : k ∈ m.map Prod.fst) :
    k ∈ (items.foldl (fun m item => mapSet m item.url item) m).map Prod.fst := by
  induction items generalizing m with
  | nil => exact h
  | cons a rest ih => exact ih _ (mem_keys_mapSet_of_mem a.url a h)

lemma mem_keys_urlFold (items : List Item) (m : List (String × Item))
    {it : Item} (h : it ∈ items) :
    it.url ∈ (items.foldl (fun m item => mapSet m item.url item) m).map Prod.fst := by
  induction items generalizing m with
  | nil => cases h
  | cons a rest ih =>
      rcases List.mem_cons.mp h with rfl | h'
      · simp only [List.foldl_cons]
        exact mem_keys_urlFold_of_mem rest _ (mem_keys_mapSet_self m it.url it)
      · exact ih _ h'

/-! ### C1 — deduplication by URL -/

/-- C1 counterexample: on a PR item and an Issue item sharing URL `u`, the
stored entry is the Issue item, not the PR item — the forEach walks
`[...prItems, ...issueItems]` and `Map.set` overwrites, so the later (Issue)
write wins; the claim as stated (PR result wins) is false. -/
theorem C1_pr_does_not_win :
    mapGet (allItems [prU] [issU]) ("u") = some issU ∧
      ¬ mapGet (allItems [prU] [issU]) ("u") = some prU := by
  decide

/-- C1 (amended): for any two input lists each containing an item with the
same URL, the aggregated map contains exactly one entry for that URL, and
when an item with that URL occurs in both the PR list and the Issue list,
the stored entry is one from the Issue result list (the last write wins). -/
theorem C1_dedup_last_write_wins :
    ∀ (prItems issueItems : List Item) (u : String) (prItem issueItem : Item),
      prItem ∈ prItems → prItem.url = u → issueItem ∈ issueItems →
      issueItem.url = u →
      List.count u ((allItems prItems issueItems).map Prod.fst) = 1 ∧
      ∃ it ∈ issueItems, it.url = u ∧
        mapGet (allItems prItems issueItems) u = some it := by
  intro prItems issueItems u prItem issueItem hpr hpru hiss hissu
  have hall : allItems prItems issueItems =
      (prItems ++ issueItems).foldl (fun m item => mapSet m item.url item) [] := by
    unfold allItems
    rw [processItems_eq]
    rfl
  constructor
  · rw [hall]
    apply List.count_eq_one_of_mem
    · exact nodup_keys_urlFold _ _ (by simp)
    · have h := mem_keys_urlFold (prItems ++ issueItems) []
        (List.mem_append_right prItems hiss)
      rwa [hissu] at h
  · rw [hall, List.foldl_append]
    exact mapGet_urlFold_mem issueItems _ u ⟨issueItem, hiss, hissu⟩

/-- C1 witness: the amended theorem applied to the concrete one-PR/one-Issue
input sharing URL `u`. -/
theorem C1_dedup_last_write_wins_witness :
    List.count ("u") ((allItems [prU] [issU]).map Prod.fst) = 1 ∧
      ∃ it ∈ [issU], it.url = "u" ∧ mapGet (allItems [prU] [issU]) ("u") = some it :=
  C1_dedup_last_write_wins [prU] [issU] "u" prU issU (by decide) (by decide)
    (by decide) (by decide)

/-! ### C2 — PR lifecycle priorities -/

/-- C2: for every Pull Request item the lifecycle-phase priority is 1 when
merged in window, 4 when closed (but not merged) in window, 2 when (only)
created in window, 3 otherwise; in particular a PR that is closed in window
and created in window but not merged gets priority 4 (closed ranks last),
not the created-in-window priority 2. -/
theorem C2_pr_lifecycle_priority :
    ∀ (start endd : String) (item : Item), item.typename = "PullRequest" →
      (optInWindow start endd item.mergedAt = true →
        getPriority start endd item = 1) ∧
      (optInWindow start endd item.mergedAt = false →
        optInWindow start endd item.closedAt = false →
        inWindow start endd item.createdAt = true →
        getPriority start endd item = 2) ∧
      (optInWindow start endd item.mergedAt = false →
        optInWindow start endd item.closedAt = false →
        inWindow start endd item.createdAt = false →
        getPriority start endd item = 3) ∧
      (optInWindow start endd item.mergedAt = false →
        optInWindow start endd item.closedAt = true →
        getPriority start endd item = 4) ∧
      (optInWindow start endd item.closedAt = true →
        inWindow start endd item.createdAt = true →
        optInWindow start endd item.mergedAt = false →
        getPriority start endd item = 4) := by
  intro start endd item h
  refine ⟨?_, ?_, ?_, ?_, ?_⟩
  · intro h1; unfold getPriority; simp [h, h1]
  · intro h1 h2 h3; unfold getPriority; simp [h, h1, h2, h3]
  · intro h1 h2 h3; unfold getPriority; simp [h, h1, h2, h3]
  · intro h1 h2; unfold getPriority; simp [h, h1, h2]
  · intro h1 h2 h3; unfold getPriority; simp [h, h1, h2, h3]

/-- A PR closed and created in the window but not merged. -/
def prClosedCreated : Item :=
  { typename := "PullRequest", number := 7, title := "some work", body := none,
    url := "u7", state := "CLOSED", createdAt := "2024-01-08",
    updatedAt := "2024-01-09", closedAt := some "2024-01-09", mergedAt := none,
    author := none, commentAuthors := [], reviewAuthors := [], aiSummary := none }

/-- C2 witness: the closed-and-created-but-not-merged PR gets priority 4. -/
theorem C2_pr_lifecycle_priority_witness :
    getPriority "2024-01-06" "2024-01-12" prClosedCreated = 4 :=
  (C2_pr_lifecycle_priority "2024-01-06" "2024-01-12" prClosedCreated
    (by decide)).2.2.2.2 (by decide) (by decide) (by decide)

/-! ### C3 — total order of the sorted sequences -/

/-- The phase tuple of the claim: title-prefix priority first, lifecycle
priority second. -/
def phasePair (start endd : String) (item : Item) : Nat × Nat :=
  (getPrefixPriority item.title, getPriority start endd item)

/-- Strictly higher priority: lexicographically smaller phase tuple. -/
def phaseLt (a b : Nat × Nat) : Prop := a.1 < b.1 ∨ (a.1 = b.1 ∧ a.2 < b.2)

lemma sortLE_iff (start endd : String) (a b : Item) :
    sortLE start endd a b = true ↔
      (phaseLt (phasePair start endd a) (phasePair start endd b) ∨
       (phasePair start endd a = phasePair start endd b ∧ a.number ≤ b.number)) := by
  unfold sortLE sortItems phaseLt phasePair
  simp only [decide_eq_true_eq, Prod.mk.injEq]
  split
  · omega
  · split <;> omega

lemma sortLE_total (start endd : String) (a b : Item) :
    sortLE start endd a b = true ∨ sortLE start endd b a = true := by
  rw [sortLE_iff, sortLE_iff]
  unfold phaseLt phasePair
  simp only [Prod.mk.injEq]
  omega

lemma sortLE_trans (start endd : String) (a b c : Item)
    (h1 : sortLE start endd a b = true) (h2 : sortLE start endd b c = true) :
    sortLE start endd a c = true := by
  rw [sortLE_iff] at h1 h2 ⊢
  unfold phaseLt phasePair at h1 h2 ⊢
  simp only [Prod.mk.injEq] at h1 h2 ⊢
  omega

/-- C3: the comparator orders by title-prefix priority, then lifecycle
priority, then ascending number, and consequently the sorted sequence has no
later item with a strictly smaller phase tuple than an earlier one, with
numbers non-decreasing among equal phase tuples (the same `sortItems`
comparator and sort are applied to the PR list and the Issue list). -/
theorem C3_sorted_by_phase_then_number :
    ∀ (start endd : String) (l : List Item),
      (∀ a b : Item, sortLE start endd a b = true ↔
        (phaseLt (phasePair start endd a) (phasePair start endd b) ∨
         (phasePair start endd a = phasePair start endd b ∧
           a.number ≤ b.number))) ∧
      (jsSort start endd l).Pairwise (fun a b =>
        ¬ phaseLt (phasePair start endd b) (phasePair start endd a) ∧
        (phasePair start endd a = phasePair start endd b →
          a.number ≤ b.number)) := by
  intro start endd l
  refine ⟨fun a b => sortLE_iff start endd a b, ?_⟩
  have hs : (jsSort start endd l).Pairwise
      (fun a b => sortLE start endd a b = true) := by
    unfold jsSort
    haveI : IsTotal Item (fun a b => sortLE start endd a b = true) :=
      ⟨fun a b => sortLE_total start endd a b⟩
    haveI : IsTrans Item (fun a b => sortLE start endd a b = true) :=
      ⟨fun a b c => sortLE_trans start endd a b c⟩
    exact List.sorted_insertionSort _ l
  refine hs.imp ?_
  intro a b hab
  rw [sortLE_iff] at hab
  unfold phaseLt phasePair at hab ⊢
  simp only [Prod.mk.injEq] at hab ⊢
  omega

/-! ### C4 — every contributing login is listed exactly once -/

lemma nodup_keys_addContributor {m : List (String × String)}
    (a : Option Author) (h : (m.map Prod.fst).Nodup) :
    ((addContributor m a).map Prod.fst).Nodup := by
  unfold addContributor
  cases loginOf a with
  | none => exact h
  | some lu => exact nodup_keys_mapSet lu.1 lu.2 h

lemma nodup_keys_authFold (auths : List (Option Author))
    (m : List (String × String)) (h : (m.map Prod.fst).Nodup) :
    ((auths.foldl addContributor m).map Prod.fst).Nodup := by
  induction auths generalizing m with
  | nil => exact h
  | cons a rest ih => exact ih _ (nodup_keys_addContributor a h)

lemma nodup_keys_contribFold (items : List Item) (m : List (String × String))
    (h : (m.map Prod.fst).Nodup) :
    ((items.foldl (fun m item => (itemAuthors item).foldl addContributor m) m).map
      Prod.fst).Nodup := by
  induction items generalizing m with
  | nil => exact h
  | cons it rest ih => exact ih _ (nodup_keys_authFold _ _ h)

lemma mem_keys_addContributor_of_mem {m : List (String × String)} {k : String}
    (a : Option Author) (h : k ∈ m.map Prod.fst) :
    k ∈ (addContributor m a).map Prod.fst := by
  unfold addContributor
  cases loginOf a with
  | none => exact h
  | some lu => exact mem_keys_mapSet_of_mem lu.1 lu.2 h

lemma mem_keys_authFold_of_mem (auths : List (Option Author))
    {m : List (String × String)} {k : String} (h : k ∈ m.map Prod.fst) :
    k ∈ (auths.foldl addContributor m).map Prod.fst := by
  induction auths generalizing m with
  | nil => exact h
  | cons a rest ih => exact ih (mem_keys_addContributor_of_mem a h)

lemma mem_keys_authFold (auths : List (Option Author))
    (m : List (String × String)) {l : String}
    (h : l ∈ auths.filterMap (fun a => (loginOf a).map Prod.fst)) :
    l ∈ (auths.foldl addContributor m).map Prod.fst := by
  induction auths generalizing m with
  | nil => simp at h
  | cons a rest ih =>
      rcases hla : loginOf a with _ | lu
      · rw [List.filterMap_cons, hla] at h
        simp only [List.foldl_cons]
        have hstep : addContributor m a = m := by unfold addContributor; rw [hla]
        rw [hstep]
        exact ih m h
      · rw [List.filterMap_cons, hla] at h
        simp only [Option.map_some', List.mem_cons] at h
        simp only [List.foldl_cons]
        have hstep : addContributor m a = mapSet m lu.1 lu.2 := by
          unfold addContributor; rw [hla]
        rw [hstep]
        rcases h with rfl | h'
        · exact mem_keys_authFold_of_mem rest (mem_keys_mapSet_self m lu.1 lu.2)
        · exact ih _ h'

lemma mem_keys_contribFold_of_mem (items : List Item)
    {m : List (String × String)} {k : String} (h : k ∈ m.map Prod.fst) :
    k ∈ (items.foldl (fun m item => (itemAuthors item).foldl addContributor m) m).map
      Prod.fst := by
  induction items generalizing m with
  | nil => exact h
  | cons it rest ih => exact ih (mem_keys_authFold_of_mem _ h)

lemma mem_keys_contribFold (items : List Item) (m : List (String × String))
    {l : String} (h : l ∈ collectedLogins items) :
    l ∈ (items.foldl (fun m item => (itemAuthors item).foldl addContributor m) m).map
      Prod.fst := by
  induction items generalizing m with
  | nil => simp [collectedLogins] at h
  | cons it rest ih =>
      unfold collectedLogins at h
      rw [List.flatMap_cons, List.mem_append] at h
      simp only [List.foldl_cons]
      rcases h with h | h
      · exact mem_keys_contribFold_of_mem rest (mem_keys_authFold _ m h)
      · exact ih _ h

/-- C4: every distinct login that appears as an item author, a comment
author, or a review author (entries without a login being skipped) occurs
exactly once in the final contributor ordering, including logins that are
also on the hard-coded core-team roster. -/
theorem C4_contributor_listed_once :
    ∀ (items : List Item) (login : String), login ∈ collectedLogins items →
      List.count login (finalContribOrder (processItems items).2) = 1 := by
  intro items login h
  have hc : (processItems items).2 = buildContrib items := by
    rw [processItems_eq]
  rw [hc]
  unfold finalContribOrder jsSortStrings
  rw [List.count_append]
  have hnodup : ((buildContrib items).map Prod.fst).Nodup :=
    nodup_keys_contribFold items [] (by simp)
  have hmem : login ∈ (buildContrib items).map Prod.fst :=
    mem_keys_contribFold items [] h
  rw [(List.perm_insertionSort _ _).count_eq]
  by_cases hcore : login ∈ coreTeam
  · have h1 : List.count login coreTeam = 1 :=
      List.count_eq_one_of_mem (by decide) hcore
    have h2 : List.count login
        (((buildContrib items).map Prod.fst).filter
          (fun c => ¬ coreTeam.contains c)) = 0 := by
      apply List.count_eq_zero.mpr
      intro hmem2
      have hpred := (List.mem_filter.mp hmem2).2
      simp only [decide_eq_true_eq] at hpred
      exact hpred (by simpa using hcore)
    omega
  · have h1 : List.count login coreTeam = 0 := List.count_eq_zero.mpr hcore
    have h2 : List.count login
        (((buildContrib items).map Prod.fst).filter
          (fun c => ¬ coreTeam.contains c)) = 1 := by
      apply List.count_eq_one_of_mem (hnodup.filter _)
      refine List.mem_filter.mpr ⟨hmem, ?_⟩
      simpa using hcore
    omega

/-- An issue authored by bob with a comment by core-team member amedina. -/
def bobItem : Item :=
  { typename := "Issue", number := 3, title := "an issue", body := none,
    url := "u3", state := "OPEN", createdAt := "2024-01-08",
    updatedAt := "2024-01-08", closedAt := none, mergedAt := none,
    author := some { login := some "bob", url := "https://example.com/bob" },
    commentAuthors := [some { login := some "amedina", url := "https://example.com/amedina" }],
    reviewAuthors := [], aiSummary := none }

/-- C4 witness: commenter amedina (also on the core-team roster) is listed
exactly once for the concrete one-item input. -/
theorem C4_contributor_listed_once_witness :
    List.count ("amedina") (finalContribOrder (processItems [bobItem]).2) = 1 :=
  C4_contributor_listed_once [bobItem] "amedina" (by decide)

/-! ### C5 — no AI key: no generative call, non-empty summary -/

lemma ne_empty_of_length_pos (s : String) (h : 0 < s.length) : ¬ s = "" := by
  intro he
  subst he
  simp at h

lemma heuristicSummary_ne_empty (start endd : String) (prs : List Item) :
    ¬ heuristicSummary start endd prs = "" := by
  simp only [heuristicSummary]
  split
  · decide
  · split
    · apply ne_empty_of_length_pos
      rw [String.length_append, String.length_append]
      have h1 : 0 < ("We are excited to highlight the completion of ").length := by
        decide
      omega
    · apply ne_empty_of_length_pos
      rw [String.length_append, String.length_append, String.length_append,
        String.length_append]
      have h1 : 0 < ("Highlights include ").length := by decide
      omega

/-- C5: with no AI key configured, the global-summary function never reaches
the generative-service path and returns a non-empty string — either the
constant filler sentence or the heuristic highlight sentence built from
merged-in-window PRs with a significant title keyword. -/
theorem C5_no_key_no_ai_call :
    ∀ (start endd : String) (ai : AIOutcome) (prsNodes : List Item),
      (generateSummary start endd none ai prsNodes).2 = false ∧
      ¬ (generateSummary start endd none ai prsNodes).1 = "" ∧
      ((generateSummary start endd none ai prsNodes).1 = fillerSummary ∨
       (generateSummary start endd none ai prsNodes).1 =
         heuristicSummary start endd prsNodes) := by
  intro start endd ai prs
  unfold generateSummary
  split
  · exact ⟨rfl, by decide, Or.inl rfl⟩
  · exact ⟨rfl, heuristicSummary_ne_empty start endd prs, Or.inr rfl⟩

/-! ### C6 — Scenario A -/

/-- C6 counterexample: for the Scenario A input, the heuristic sentence
contains the title verbatim — the conventional-commit regex does not match
the title Feature: add caching (after the alternative feat the regex needs
an opening parenthesis or a colon, but the next character is u), so the
prefix is NOT stripped and the claimed stripped sentence is not produced. -/
theorem C6_scenarioA_counterexample :
    (generateSummary "2024-01-06" "2024-01-12" none AIOutcome.err [c6pr]).1 =
      "We are excited to highlight the completion of [Feature: add caching](https://example.com/pr/42)." ∧
    ¬ (generateSummary "2024-01-06" "2024-01-12" none AIOutcome.err [c6pr]).1 =
      "We are excited to highlight the completion of [add caching](https://example.com/pr/42)." := by
  decide

set_option maxRecDepth 4000 in
/-- C6 (amended): for the Scenario A input the global summary is the
heuristic single-highlight sentence mentioning caching with the title
included verbatim (the regex strips only feat/fix/chore/docs markers, which
do not match Feature:), no generative call is made, and the PR is classified
merged-in-window and rendered with the merged icon and the Merged on status
and its merge date (the external date formatter is instantiated with the
identity function to expose the date handed to it). -/
theorem C6_scenarioA :
    (generateSummary "2024-01-06" "2024-01-12" none AIOutcome.err [c6pr]).1 =
      "We are excited to highlight the completion of [Feature: add caching](https://example.com/pr/42)." ∧
    (generateSummary "2024-01-06" "2024-01-12" none AIOutcome.err [c6pr]).2 = false ∧
    jsIncludes (generateSummary "2024-01-06" "2024-01-12" none AIOutcome.err
      [c6pr]).1 ("caching") = true ∧
    stripTitleTag ("Feature: add caching") = "Feature: add caching" ∧
    optInWindow "2024-01-06" "2024-01-12" c6pr.mergedAt = true ∧
    getPriority "2024-01-06" "2024-01-12" c6pr = 1 ∧
    renderAccordion (fun d => d) "2024-01-06" "2024-01-12" c6pr ("pr") =
      "<details>\n<summary>✅ <strong>Feature: add caching</strong> (Merged on 2024-01-10 by <a href=\"https://example.com/alice\">@alice</a>)</summary>\n<br>\nNo description provided.\n<br><br>\n<a href=\"https://example.com/pr/42\">📥 View Pull Request</a>\n</details>" := by
  decide

/-! ### C7 — discussion category selection -/

lemma selectCategory_eq_none_iff (cats : List Category) :
    selectCategory cats = none ↔ cats = [] := by
  cases cats with
  | nil => simp [selectCategory]
  | cons a rest =>
      unfold selectCategory
      rcases hf : List.find? (fun c => toLowerStr c.name = "announcements")
          (a :: rest) with _ | c <;> rw [hf] <;> simp

/-- The two Scenario D categories. -/
def genCat : Category := { id := "cat1", name := "General" }

/-- The announcements category of Scenario D, listed second. -/
def annCat : Category := { id := "cat2", name := "Announcements" }

/-- C7: the publisher selects the category named announcements
case-insensitively regardless of position, or the first category when none
matches; it fails with the fatal error exactly when the category list is
empty; and on the Scenario D list it selects Announcements. -/
theorem C7_category_selection :
    ∀ (cats : List Category),
      (selectCategory cats = none ↔ cats = []) ∧
      (∀ c, selectCategory cats = some c →
        (∃ d ∈ cats, toLowerStr d.name = "announcements") →
        toLowerStr c.name = "announcements") ∧
      ((∀ d ∈ cats, ¬ toLowerStr d.name = "announcements") →
        selectCategory cats = cats.head?) ∧
      (∀ (gh rid du t b : String),
        publishTail none (some gh) { id := rid, categories := cats } du t b =
          Except.error ("No discussion categories found.") ↔ cats = []) ∧
      selectCategory [genCat, annCat] = some annCat := by
  intro cats
  refine ⟨selectCategory_eq_none_iff cats, ?_, ?_, ?_, by decide⟩
  · intro c hsel hex
    unfold selectCategory at hsel
    rcases hf : List.find? (fun c => toLowerStr c.name = "announcements") cats
      with _ | c'
    · rcases hex with ⟨d, hd, hdann⟩
      have hnone := List.find?_eq_none.mp hf d hd
      simp [hdann] at hnone
    · rw [hf] at hsel
      cases hsel
      have hp := List.find?_some hf
      simpa using hp
  · intro hnone
    unfold selectCategory
    have hf : List.find? (fun c => toLowerStr c.name = "announcements") cats
        = none := by
      apply List.find?_eq_none.mpr
      intro x hx
      simpa using hnone x hx
    rw [hf]
  · intro gh rid du t b
    unfold publishTail
    rw [if_neg (by simp)]
    rcases hs : selectCategory cats with _ | c
    · have hnil := (selectCategory_eq_none_iff cats).mp hs
      simp [hnil]
    · have hne : ¬ cats = [] := by
        intro h
        subst h
        simp [selectCategory] at hs
      simp [hne]

/-! ### C8 — dry run performs no lookup and no mutation -/

/-- C8: with the dry-run flag set, the publisher tail succeeds (exit status
zero), logs the rendered body to operator output, and performs no repository
lookup and no discussion-creation mutation. -/
theorem C8_dry_run_no_mutation :
    ∀ (gh : Option String) (ri : RepoInfo) (du t b : String),
      ∃ effs, publishTail (some "true") gh ri du t b = Except.ok effs ∧
        Eff.consoleLog b ∈ effs ∧
        ∀ e ∈ effs, (∀ o r, ¬ e = Eff.repoLookup o r) ∧
          (∀ i c tt bb, ¬ e = Eff.createDiscussion i c tt bb) := by
  intro gh ri du t b
  refine ⟨[Eff.consoleLog sepLine,
    Eff.consoleLog ("DRY RUN MODE ENABLED. Generated Body:"),
    Eff.consoleLog sepLine, Eff.consoleLog b, Eff.consoleLog sepLine],
    ?_, ?_, ?_⟩
  · unfold publishTail
    rw [if_pos rfl]
  · simp
  · intro e he
    simp only [List.mem_cons, List.not_mem_nil, or_false] at he
    rcases he with rfl | rfl | rfl | rfl | rfl <;>
      exact ⟨by simp, by simp⟩

/-! ### C9 — fetch failures degrade to empty lists, independently -/

/-- C9: each of the two search fetches catches its own query failure and
returns an empty list for that kind only; no error propagates (both
components of the awaited pair are always successful values), a failed query
yields the empty list, a successful query yields its nodes unchanged, and
the failure of one query does not affect the result of the other. -/
theorem C9_fetch_failure_degrades :
    ∀ (prResult issueResult : Except String (List Item)),
      (∃ l1, (fetchBoth prResult issueResult).1 = Except.ok l1) ∧
      (∃ l2, (fetchBoth prResult issueResult).2 = Except.ok l2) ∧
      (∀ e, prResult = Except.error e →
        (fetchBoth prResult issueResult).1 = Except.ok [] ∧
        (fetchBoth prResult issueResult).2 = fetchItems issueResult) ∧
      (∀ e, issueResult = Except.error e →
        (fetchBoth prResult issueResult).2 = Except.ok [] ∧
        (fetchBoth prResult issueResult).1 = fetchItems prResult) ∧
      (∀ l, prResult = Except.ok l →
        (fetchBoth prResult issueResult).1 = Except.ok l) ∧
      (∀ l, issueResult = Except.ok l →
        (fetchBoth prResult issueResult).2 = Except.ok l) := by
  intro prResult issueResult
  cases prResult <;> cases issueResult <;>
    simp [fetchBoth, fetchItems]

/-! ### C10 — the enrichment step touches only aiSummary of relevant PRs,
but it is not atomic -/

/-- The frame of the assignment loop, true of every trace including the ones
aborted mid-loop: only `aiSummary` ever changes, and a non-relevant PR is
completely unchanged. -/
lemma assignSummaries_frame (start endd : String)
    (summaries : List ParsedEntry) :
    ∀ (l : List Item) (i : Nat),
      List.Forall₂ (fun a b =>
        stripAI b = stripAI a ∧
        (isRelevantPR start endd a = false → b = a))
        l (assignSummaries start endd summaries l i) := by
  intro l
  induction l with
  | nil => intro i; exact List.Forall₂.nil
  | cons pr rest ih =>
      intro i
      unfold assignSummaries
      by_cases hrel : isRelevantPR start endd pr = true
      · rw [if_pos hrel]
        cases hfind : findSummary summaries i with
        | error e =>
            exact List.forall₂_same.mpr (fun x _ => ⟨rfl, fun _ => rfl⟩)
        | ok found =>
            refine List.Forall₂.cons ⟨rfl, ?_⟩ (ih (i + 1))
            intro hf; rw [hrel] at hf; cases hf
      · rw [if_neg hrel]
        exact List.Forall₂.cons ⟨rfl, fun _ => rfl⟩ (ih i)

/-- When no element of the parsed array is null, `find` cannot throw. -/
lemma findSummary_ok_of_no_nullish (entries : List ParsedEntry) (i : Nat)
    (h : ∀ e ∈ entries, ¬ e = ParsedEntry.nullish) :
    ∃ r, findSummary entries i = Except.ok r := by
  induction entries with
  | nil => exact ⟨none, rfl⟩
  | cons e rest ih =>
      cases e with
      | nullish => exact absurd rfl (h _ (List.mem_cons_self _ _))
      | obj idx s =>
          unfold findSummary
          by_cases hidx : idx = i
          · rw [if_pos hidx]
            exact ⟨some (idx, s), rfl⟩
          · rw [if_neg hidx]
            exact ih (fun x hx => h x (List.mem_cons_of_mem _ hx))

/-- When no element of the parsed array is null, the loop completes and
assigns a summary to every relevant PR. -/
lemma assignSummaries_assigns (start endd : String)
    (summaries : List ParsedEntry)
    (hnn : ∀ e ∈ summaries, ¬ e = ParsedEntry.nullish) :
    ∀ (l : List Item) (i : Nat),
      List.Forall₂ (fun a b =>
        isRelevantPR start endd a = true → b.aiSummary.isSome = true)
        l (assignSummaries start endd summaries l i) := by
  intro l
  induction l with
  | nil => intro i; exact List.Forall₂.nil
  | cons pr rest ih =>
      intro i
      unfold assignSummaries
      by_cases hrel : isRelevantPR start endd pr = true
      · rw [if_pos hrel]
        rcases findSummary_ok_of_no_nullish summaries i hnn with ⟨r, hr⟩
        rw [hr]
        exact List.Forall₂.cons (fun _ => rfl) (ih (i + 1))
      · rw [if_neg hrel]
        exact List.Forall₂.cons (fun ht => absurd ht hrel) (ih i)

/-- A first relevant PR (merged 2024-01-09), aiSummary unset. -/
def c10prA : Item :=
  { typename := "PullRequest", number := 10, title := "first pr", body := none,
    url := "u10", state := "MERGED", createdAt := "2024-01-08",
    updatedAt := "2024-01-09", closedAt := some "2024-01-09",
    mergedAt := some "2024-01-09", author := none, commentAuthors := [],
    reviewAuthors := [], aiSummary := none }

/-- A second relevant PR (merged 2024-01-10), aiSummary unset. -/
def c10prB : Item :=
  { typename := "PullRequest", number := 11, title := "second pr", body := none,
    url := "u11", state := "MERGED", createdAt := "2024-01-08",
    updatedAt := "2024-01-10", closedAt := some "2024-01-10",
    mergedAt := some "2024-01-10", author := none, commentAuthors := [],
    reviewAuthors := [], aiSummary := none }

/-- C10 counterexample: the summarization step is not atomic.  With a key
configured, two relevant PRs (both with aiSummary unset) and a successfully
parsed response whose `summaries` array is an object for index 0 followed by
a null element, iteration 0 of the forEach finds its match (the walk stops
before the null) and assigns the first summary; iteration 1 then evaluates
null dot index, throws, and is caught by the logging catch — the first PR
keeps its assigned summary while the second stays unset.  Some but not all
summaries are assigned, refuting both directions of the claimed atomicity
(all on success, none on failure). -/
theorem C10_partial_assignment :
    isRelevantPR "2024-01-06" "2024-01-12" c10prA = true ∧
    isRelevantPR "2024-01-06" "2024-01-12" c10prB = true ∧
    c10prA.aiSummary = none ∧ c10prB.aiSummary = none ∧
    (enrichPRs "2024-01-06" "2024-01-12" (some "key")
        (Except.ok [ParsedEntry.obj 0 "x", ParsedEntry.nullish])
        [c10prA, c10prB]).map Item.aiSummary = [some "x", none] := by
  decide

/-- C10 (amended): the per-item AI summarization step leaves the issues
list untouched and changes at most the aiSummary field of the PRs: stripped
of aiSummary, the output PR list equals the input, and a PR that is not
relevant (merged/closed/created in window) is completely unchanged, on every
trace including the ones where the mapping loop throws mid-iteration.  When
the generative call or the JSON extraction/parsing itself throws, no
aiSummary is assigned at all.  The step is however not atomic: a null
element inside a successfully parsed summaries array makes the mapping loop
throw after earlier iterations have assigned their summaries (see the
counterexample); only when the parsed array is free of null elements does a
successful response (with a key configured and at least one relevant PR)
assign a summary to every relevant PR. -/
theorem C10_enrichment_frame :
    ∀ (start endd : String) (geminiApiKey : Option String)
      (aiResponse : Except String (List ParsedEntry))
      (prs issues : List Item),
      (enrichStep start endd geminiApiKey aiResponse (prs, issues)).2 = issues ∧
      List.Forall₂ (fun a b =>
        stripAI b = stripAI a ∧
        (isRelevantPR start endd a = false → b = a))
        prs (enrichStep start endd geminiApiKey aiResponse (prs, issues)).1 ∧
      (∀ e, aiResponse = Except.error e →
        (enrichStep start endd geminiApiKey aiResponse (prs, issues)).1 = prs) ∧
      (∀ summaries, aiResponse = Except.ok summaries →
        (∀ entry ∈ summaries, ¬ entry = ParsedEntry.nullish) →
        0 < (prs.filter (isRelevantPR start endd)).length →
        geminiApiKey.isSome = true →
        List.Forall₂ (fun a b =>
          isRelevantPR start endd a = true → b.aiSummary.isSome = true)
          prs (enrichStep start endd geminiApiKey aiResponse (prs, issues)).1)
    := by
  intro start endd geminiApiKey aiResponse prs issues
  refine ⟨rfl, ?_, ?_, ?_⟩
  · show List.Forall₂ _ prs (enrichPRs start endd geminiApiKey aiResponse prs)
    cases aiResponse with
    | ok summaries =>
        unfold enrichPRs
        dsimp only
        by_cases hc : 0 < (List.filter (isRelevantPR start endd) prs).length ∧
            geminiApiKey.isSome = true
        · rw [if_pos hc]
          exact assignSummaries_frame start endd summaries prs 0
        · rw [if_neg hc]
          exact List.forall₂_same.mpr (fun x _ => ⟨rfl, fun _ => rfl⟩)
    | error e =>
        unfold enrichPRs
        dsimp only
        rw [ite_self]
        exact List.forall₂_same.mpr (fun x _ => ⟨rfl, fun _ => rfl⟩)
  · intro e he
    subst he
    show enrichPRs start endd geminiApiKey (Except.error e) prs = prs
    unfold enrichPRs
    dsimp only
    rw [ite_self]
  · intro summaries hok hnn hlen hkey
    subst hok
    show List.Forall₂ _ prs (enrichPRs start endd geminiApiKey
      (Except.ok summaries) prs)
    unfold enrichPRs
    dsimp only
    rw [if_pos ⟨hlen, hkey⟩]
    exact assignSummaries_assigns start endd summaries hnn prs 0

end AWL
